import Mathlib

/-!
Verification of the retry output stage (src/lib/output/retry.go).

The Go source is embedded shallowly: channels and goroutine interleavings
become explicit schedule oracles, atomic integers become plain naturals or
integers with the serialisation guaranteed by the atomic operations made
explicit, and every blocking select is resolved by a schedule field saying
which case won. Fuel makes the (possibly non-terminating) loops total;
a run that exhausts its fuel is `none` and theorems quantify over runs
that complete.
-/

namespace RetryOutput

/-- Terminal outcome a worker can write back on the transaction's original
response channel: `ack` is response.NewAck (success), `noack` is
response.NewNoack (budget exhaustion). -/
inductive Outcome where
  | ack
  | noack
  deriving DecidableEq, Repr

/-- Response received from the delivery target on the per-attempt response
channel: `failure` models a response with `res.Error() != nil`
(retry.go line 281), `success` one with a nil error. -/
inductive Res where
  | success
  | failure
  deriving DecidableEq, Repr

/-- Result of one call to the per-transaction backoff instance
(`backOff.NextBackOff()`, retry.go line 293): either a wait interval in
milliseconds or the stop sentinel `backoff.Stop`. -/
inductive BackoffResult where
  | interval (ms : Nat)
  | stop
  deriving DecidableEq, Repr

/-- Schedule oracle for one worker goroutine (retry.go lines 253-323).
For loop iteration i: `runningAt i` is the value of `r.running` read at the
loop head (line 273); `respAt i` resolves the response select (lines
275-279, `none` meaning closeChan won); `timerClosed i` says whether
closeChan won the backoff-timer select (lines 299-303); `sendClosed i`
whether closeChan won the resubmission select (lines 305-309);
`finalClosed` whether closeChan won the final response-write select
(lines 318-322). `payloadLen` is `ts.Payload.Len()`. -/
structure WorkerSched where
  runningAt : Nat → Bool
  respAt : Nat → Option Res
  timerClosed : Nat → Bool
  sendClosed : Nat → Bool
  finalClosed : Bool
  payloadLen : Nat

/-- Worker-visible mutable state: `inErrLoop` is the local flag of the same
name; the `m*` fields count metric increments (mError = retry.send.error,
mSuccess = retry.send.success, mPartsSuccess = retry.parts.send.success,
mEndOfRetries = retry.end_of_retries); `resubmits` counts sends on
r.transactionsOut performed by the worker (line 306); `incs` counts the
increments of the shared errLooped counter performed by this worker
(line 284). -/
structure WState where
  inErrLoop : Bool
  mError : Nat
  mSuccess : Nat
  mPartsSuccess : Nat
  mEndOfRetries : Nat
  resubmits : Nat
  incs : Nat
  deriving DecidableEq, Repr

/-- Worker state at goroutine start (retry.go lines 254-256). -/
def WState.init : WState := ⟨false, 0, 0, 0, 0, 0, 0⟩

/-- How the labelled `retryLoop` was left: `broke o` is `break retryLoop`
with resOut set to o; `fellThrough` is the loop condition
`atomic.LoadInt32(&r.running) == 1` reading false, leaving resOut at its
nil zero value; `returned` is a `return` from a closeChan select case
inside the loop body. -/
inductive LoopExit where
  | broke (o : Outcome)
  | fellThrough
  | returned
  deriving DecidableEq, Repr

/-- The labelled retryLoop (retry.go lines 272-316). `boff k` is the result
of the backoff instance's (k+1)-th NextBackOff call; the instance is
created lazily on the first failure (lines 289-291) and advanced once per
failure, so the call index equals the number of failures seen so far. -/
def retryLoop (s : WorkerSched) (boff : Nat → BackoffResult) :
    Nat → Nat → WState → Option (WState × LoopExit)
  | 0, _, _ => none
  | fuel+1, i, st =>
    if s.runningAt i then
      match s.respAt i with
      | none => some (st, LoopExit.returned)
      | some Res.success =>
        some ({ st with
                  mSuccess := st.mSuccess + 1,
                  mPartsSuccess := st.mPartsSuccess + s.payloadLen },
              LoopExit.broke Outcome.ack)
      | some Res.failure =>
        let st1 : WState :=
          if st.inErrLoop then st
          else { st with inErrLoop := true, incs := st.incs + 1 }
        let st2 : WState := { st1 with mError := st1.mError + 1 }
        match boff st.mError with
        | BackoffResult.stop =>
          some ({ st2 with mEndOfRetries := st2.mEndOfRetries + 1 },
                LoopExit.broke Outcome.noack)
        | BackoffResult.interval _ =>
          if s.timerClosed i then some (st2, LoopExit.returned)
          else if s.sendClosed i then some (st2, LoopExit.returned)
          else retryLoop s boff fuel (i+1)
                 { st2 with resubmits := st2.resubmits + 1 }
    else
      some (st, LoopExit.fellThrough)

/-- Completed run of one worker goroutine. `finalWrite` records the final
response-write select (retry.go lines 318-322): `none` when no value was
sent on ts.ResponseChan (either a `return` happened inside the loop, or
closeChan won the final select); `some v` when v was sent, where
`v = none` models sending the nil zero value of resOut (the fellThrough
path) and `v = some o` models sending the ack/noack outcome o. -/
structure WorkerResult where
  st : WState
  exited : LoopExit
  finalWrite : Option (Option Outcome)
  deriving DecidableEq, Repr

/-- Run the whole worker goroutine body from its initial state. -/
def runWorker (s : WorkerSched) (boff : Nat → BackoffResult) (fuel : Nat) :
    Option WorkerResult :=
  match retryLoop s boff fuel 0 WState.init with
  | none => none
  | some (st, ex) =>
    let w : Option (Option Outcome) :=
      match ex with
      | LoopExit.returned => none
      | LoopExit.broke o => if s.finalClosed then none else some (some o)
      | LoopExit.fellThrough => if s.finalClosed then none else some none
    some ⟨st, ex, w⟩

/-- Decrements of the shared errLooped counter performed by the worker's
deferred function (retry.go lines 258-270): the defer runs on every exit
path and decrements exactly when inErrLoop is set. -/
def WorkerResult.decs (r : WorkerResult) : Nat :=
  if r.st.inErrLoop then 1 else 0

/-- Number of terminal outcomes (ack or noack) actually written to the
transaction's original response channel in this run. -/
def WorkerResult.terminalWrites (r : WorkerResult) : Nat :=
  match r.finalWrite with
  | some (some _) => 1
  | _ => 0

/-- Total delivery attempts for one transaction: the coordinator's initial
dispatch (retry.go line 247) plus the worker's resubmissions. -/
def totalDeliveryAttempts (r : WorkerResult) : Nat := 1 + r.st.resubmits

/-! Lifecycle controller (retry.go lines 349-363). -/

/-- Shared lifecycle state: `running` is the int32 flag (1 while running),
`closeChanClosed` whether closeChan has been closed, and
`doubleClosePanics` counts attempts to close an already-closed channel
(which panic in Go). -/
structure LifecycleState where
  running : Nat
  closeChanClosed : Bool
  doubleClosePanics : Nat
  deriving DecidableEq, Repr

/-- Lifecycle state as NewRetry constructs it (retry.go line 178). -/
def LifecycleState.init : LifecycleState := ⟨1, false, 0⟩

/-- CloseAsync (retry.go lines 349-353): `CompareAndSwapInt32(&r.running,
1, 0)` and, when the swap succeeds, `close(r.closeChan)`. The CAS is
atomic, so concurrent calls serialise; a sequence of calls therefore
models any concurrent execution. The returned Bool is whether this call
performed the transition. -/
def closeAsync (s : LifecycleState) : LifecycleState × Bool :=
  if s.running = 1 then
    ({ running := 0,
       closeChanClosed := true,
       doubleClosePanics :=
         s.doubleClosePanics + (if s.closeChanClosed then 1 else 0) }, true)
  else (s, false)

/-- n successive calls to CloseAsync; the Nat counts how many of them
performed the transition. -/
def closeAsyncN : Nat → LifecycleState → LifecycleState × Nat
  | 0, s => (s, 0)
  | n+1, s =>
    let p := closeAsync s
    let q := closeAsyncN n p.1
    (q.1, (if p.2 then 1 else 0) + q.2)

/-- The error value types.ErrTimeout returned by WaitForClose. -/
inductive CloseErr where
  | timeout
  deriving DecidableEq, Repr

/-- WaitForClose (retry.go lines 356-363): a select between r.closedChan
and time.After(d). `closedAt` is the absolute time at which closedChan is
closed (`none` = never), `now` the call time, `d` the timeout. The select
resolves to whichever channel becomes ready first; simultaneous readiness
is resolved in favour of closedChan (an already-closed channel is ready
immediately, while the timer only becomes ready after d elapses). -/
def waitForClose (closedAt : Option Nat) (now d : Nat) : Option CloseErr :=
  match closedAt with
  | none => some CloseErr.timeout
  | some c => if now + d < max now c then some CloseErr.timeout else none

/-- The timeout elapses strictly before the fully-closed signal becomes
receivable. -/
def timeoutElapsesFirst (closedAt : Option Nat) (now d : Nat) : Prop :=
  match closedAt with
  | none => True
  | some c => now + d < max now c

/-! Consume wiring (retry.go lines 330-340). -/

/-- Wiring-relevant fields of the Retry value: `transactionsIn` is the
upstream channel stored by Consume (`none` = the nil Go channel),
`transactionsOut` the channel created by NewRetry, `wrappedIn` the channel
the wrapped output has been wired to, `loopStarted` whether `go r.loop()`
has run. Channels are identified by Nat ids. -/
structure ConsumeState where
  transactionsIn : Option Nat
  transactionsOut : Nat
  wrappedIn : Option Nat
  loopStarted : Bool
  deriving DecidableEq, Repr

/-- Wiring state as NewRetry constructs it. -/
def ConsumeState.init (outCh : Nat) : ConsumeState := ⟨none, outCh, none, false⟩

/-- Errors Consume can return. -/
inductive ConsumeErr where
  | alreadyStarted
  | wrappedAlreadyStarted
  deriving DecidableEq, Repr

/-- The wrapped output's Consume, per the Delivery Target contract
(it fails if already wired, as any output's Consume does). -/
def wrappedConsume (s : ConsumeState) (ch : Nat) : ConsumeState × Option ConsumeErr :=
  match s.wrappedIn with
  | some _ => (s, some ConsumeErr.wrappedAlreadyStarted)
  | none => ({ s with wrappedIn := some ch }, none)

/-- Consume (retry.go lines 330-340): reject with ErrAlreadyStarted if
transactionsIn is already non-nil, otherwise wire the wrapped output to
transactionsOut, store the upstream channel and start the loop. -/
def consume (s : ConsumeState) (ts : Nat) : ConsumeState × Option ConsumeErr :=
  match s.transactionsIn with
  | some _ => (s, some ConsumeErr.alreadyStarted)
  | none =>
    let p := wrappedConsume s s.transactionsOut
    match p.2 with
    | some err => (p.1, some err)
    | none => ({ p.1 with transactionsIn := some ts, loopStarted := true }, none)

/-! Configuration (retry.go lines 86-102). -/

/-- The child output configuration; only its declared type name matters to
this component (it is used in the construction error message). -/
structure OutputConf where
  typeName : String
  deriving DecidableEq, Repr

/-- The backoff fields of retries.Config (lib/util/retries), as duration
strings. -/
structure BackoffConf where
  InitialInterval : String
  MaxInterval : String
  MaxElapsedTime : String
  deriving DecidableEq, Repr

/-- retries.Config (lib/util/retries): the fields NewRetryConfig touches. -/
structure RetriesConfig where
  MaxRetries : Nat
  Backoff : BackoffConf
  deriving DecidableEq, Repr

/-- RetryConfig (retry.go lines 86-89): a child output config pointer and
an embedded retries.Config. -/
structure RetryConfig where
  Output : Option OutputConf
  Config : RetriesConfig
  deriving DecidableEq, Repr

/-- NewRetryConfig (retry.go lines 92-102). retries.NewConfig lives in
lib/util/retries, outside the provided source, so the library default is
taken as the parameter `libDefault`; NewConfig is pure, so both calls to
it in the source yield this same value. The function builds rConf from the
default with local overrides, but the return statement uses a fresh
retries.NewConfig() and a nil Output, so rConf is discarded. -/
def newRetryConfig (libDefault : RetriesConfig) : RetryConfig :=
  let rConf : RetriesConfig :=
    { libDefault with
        MaxRetries := 0,
        Backoff :=
          { InitialInterval := "100ms", MaxInterval := "1s",
            MaxElapsedTime := "0s" } }
  { Output := none, Config := libDefault }

/-! Coordinator backpressure gate (retry.go lines 220-243). -/

/-- Event resolving one wait of the backpressure gate (the select at lines
224-230), carrying its elapsed time in milliseconds: an interrupt
notification from a worker, the 100ms fallback timeout, or the
cancellation channel. -/
inductive GateEv where
  | interrupt (ms : Nat)
  | timeout
  | closed (ms : Nat)
  deriving DecidableEq, Repr

/-- Time one gate wait took, in milliseconds. -/
def GateEv.elapsed : GateEv → Nat
  | GateEv.interrupt t => t
  | GateEv.timeout => 100
  | GateEv.closed t => t

/-- A gate event can only win its select within the 100ms timer: an
interrupt or a cancellation arriving later than the timer loses to it. -/
def GateEv.valid : GateEv → Prop
  | GateEv.interrupt t => t < 100
  | GateEv.timeout => True
  | GateEv.closed t => t ≤ 100

/-- Schedule oracle for the coordinator's gate: `counterAt k` is the value
`atomic.LoadInt64(&errLooped)` reads at the k-th gate check (line 223),
`evAt k` the event resolving the k-th gate wait. -/
structure GateSched where
  counterAt : Nat → Nat
  evAt : Nat → GateEv

/-- How the inner gate loop ended: `proceed k` means the k-th check read
zero and the coordinator moves on to pull a transaction after k waits;
`returned k` means closeChan won the k-th wait and the loop returns. -/
inductive GateResult where
  | proceed (checks : Nat)
  | returned (waits : Nat)
  deriving DecidableEq, Repr

/-- The inner gate loop (retry.go lines 223-231): while the errLooped read
is positive, wait on one of the three select cases; a closeChan win
returns from the whole coordinator loop. -/
def gate (s : GateSched) : Nat → Nat → Option GateResult
  | 0, _ => none
  | fuel+1, k =>
    if s.counterAt k = 0 then some (GateResult.proceed k)
    else
      match s.evAt k with
      | GateEv.closed _ => some (GateResult.returned (k+1))
      | GateEv.interrupt _ => gate s fuel (k+1)
      | GateEv.timeout => gate s fuel (k+1)

/-- Observable actions of one coordinator iteration: the gate waits, then
either the pull from transactionsIn (line 236) or the loop's return. -/
inductive CoordAction where
  | gateWait (ev : GateEv)
  | pull
  | exitLoop
  deriving DecidableEq, Repr

/-- Action trace of one coordinator iteration up to the pull. -/
def coordIterActions (s : GateSched) (fuel : Nat) : Option (List CoordAction) :=
  match gate s fuel 0 with
  | none => none
  | some (GateResult.proceed k) =>
    some (((List.range k).map (fun j => CoordAction.gateWait (s.evAt j))) ++
      [CoordAction.pull])
  | some (GateResult.returned k) =>
    some (((List.range k).map (fun j => CoordAction.gateWait (s.evAt j))) ++
      [CoordAction.exitLoop])

/-! Construction (retry.go lines 157-190). -/

/-- The constructed Retry value, as far as construction is concerned. -/
structure RetryModel where
  running : Nat
  childTypeName : String
  deriving DecidableEq, Repr

/-- Errors NewRetry can return: a missing child config, a child output
construction failure wrapped with the child's declared type name, or a
backoff constructor failure propagated unchanged. -/
inductive ConstructErr where
  | noChild
  | childFailed (typeName err : String)
  | backoffCtorFailed (err : String)
  deriving DecidableEq, Repr

/-- Whether an Except is an error. -/
def isErr {ε α : Type} : Except ε α → Bool
  | Except.error _ => true
  | Except.ok _ => false

/-- NewRetry (retry.go lines 157-190): reject a nil child config, construct
the child output (wrapping a failure with the child's declared type name),
then obtain the backoff constructor. `childNew` models `New` for the child
config. `getCtor` models `conf.Retry.GetCtor()`, which lives in
lib/util/retries outside the provided source; modelled from the spec:
malformed backoff configuration is a fatal construction-time error, so
GetCtor is an Except value whose error NewRetry propagates unchanged. -/
def newRetry (retryOutput : Option OutputConf)
    (childNew : OutputConf → Except String Unit)
    (getCtor : Except String Unit) : Except ConstructErr RetryModel :=
  match retryOutput with
  | none => Except.error ConstructErr.noChild
  | some c =>
    match childNew c with
    | Except.error e => Except.error (ConstructErr.childFailed c.typeName e)
    | Except.ok _ =>
      match getCtor with
      | Except.error e => Except.error (ConstructErr.backoffCtorFailed e)
      | Except.ok _ => Except.ok ⟨1, c.typeName⟩

/-! Deferred shutdown (retry.go lines 205-213). -/

/-- Observable steps of the deferred shutdown, in order: close
transactionsOut, the wrapped output's CloseAsync, one WaitForClose poll
(with its timeout in seconds and whether it returned nil), the running
gauge decrement, the close of closedChan. -/
inductive ShutEv where
  | closeTransactionsOut
  | wrappedCloseAsync
  | wrappedWaitPoll (timeoutSeconds : Nat) (ok : Bool)
  | gaugeDecr
  | closeClosedChan
  deriving DecidableEq, Repr

/-- The WaitForClose re-poll loop (retry.go lines 208-210): call
`r.wrapped.WaitForClose(time.Second)` repeatedly until it returns nil.
`pollOk i` is whether the (i+1)-th poll returns nil. -/
def pollLoop (pollOk : Nat → Bool) : Nat → Nat → Option (List ShutEv)
  | 0, _ => none
  | fuel+1, i =>
    if pollOk i then some [ShutEv.wrappedWaitPoll 1 true]
    else Option.map (fun l => ShutEv.wrappedWaitPoll 1 false :: l)
           (pollLoop pollOk fuel (i+1))

/-- The deferred shutdown sequence (retry.go lines 205-213): close
transactionsOut, ask the wrapped output to stop, re-poll its WaitForClose
on a one-second interval until it reports closed, decrement the running
gauge, and only then close closedChan. -/
def shutdown (pollOk : Nat → Bool) (fuel : Nat) : Option (List ShutEv) :=
  Option.map (fun polls =>
      ShutEv.closeTransactionsOut :: ShutEv.wrappedCloseAsync ::
        (polls ++ [ShutEv.gaugeDecr, ShutEv.closeClosedChan]))
    (pollLoop pollOk fuel 0)

/-! Global retry-loop counter traces. The shared errLooped int64 is mutated
only by atomic adds: an increment by a worker on its first failure
(retry.go line 284) and a decrement by that worker's deferred function
(line 261). Interleaved executions are therefore modelled by a list of
counter events applied in order; the side conditions of `applyTrace`
(an increment only by a worker not currently in its error loop, a
decrement only by one that is) are exactly what the per-worker theorem
establishes: each worker increments at most once, and decrements exactly
when it has incremented. -/

/-- One atomic mutation of the shared errLooped counter, tagged with the
id of the worker performing it. -/
inductive CEv where
  | inc (w : Nat)
  | dec (w : Nat)
  deriving DecidableEq, Repr

/-- Apply a trace of counter events to (counter value, ids of workers
currently in their error loop); `none` when the trace violates the
per-worker discipline. -/
def applyTrace : Int × List Nat → List CEv → Option (Int × List Nat)
  | st, [] => some st
  | st, CEv.inc w :: rest =>
    if w ∈ st.2 then none else applyTrace (st.1 + 1, w :: st.2) rest
  | st, CEv.dec w :: rest =>
    if w ∈ st.2 then applyTrace (st.1 - 1, st.2.erase w) rest else none

/-! Theorems. -/

/-- C10: NewRetryConfig returns the untouched library default retries
config and a nil Output; the locally built overrides never affect the
returned value (the result depends only on the library default). -/
theorem retryC10 (libDefault : RetriesConfig) :
    newRetryConfig libDefault = ⟨none, libDefault⟩ := rfl

/-- Helper: CloseAsync is a no-op once the running flag is 0. -/
theorem closeAsync_noop (s : LifecycleState) (h : s.running = 0) :
    closeAsync s = (s, false) := by
  unfold closeAsync
  simp [h]

/-- Helper: iterating CloseAsync from a stopped state does nothing. -/
theorem closeAsyncN_stopped (n : Nat) (s : LifecycleState) (h : s.running = 0) :
    closeAsyncN n s = (s, 0) := by
  induction n with
  | zero => rfl
  | succ n ih =>
    unfold closeAsyncN
    simp [closeAsync_noop s h, ih]

/-- C5: CloseAsync is idempotent: across any positive number of calls
(concurrent calls serialise through the atomic CAS), exactly one call
performs the transition, the final state has the flag cleared and the
channel closed, the channel is never closed twice (no panic), and any call
made after the transition is a no-op. -/
theorem retryC5 (n : Nat) (h : 0 < n) :
    (closeAsyncN n LifecycleState.init).2 = 1 ∧
    (closeAsyncN n LifecycleState.init).1 = ⟨0, true, 0⟩ ∧
    (∀ s : LifecycleState, s.running = 0 → closeAsync s = (s, false)) := by
  obtain ⟨m, rfl⟩ := Nat.exists_eq_add_of_lt h
  refine ⟨?_, ?_, fun s hs => closeAsync_noop s hs⟩ <;>
    simp [closeAsyncN, closeAsync, LifecycleState.init,
      closeAsyncN_stopped m ⟨0, true, 0⟩ rfl]

/-- C5 witness: three calls at the concrete initial state. -/
theorem retryC5_witness :
    (closeAsyncN 3 LifecycleState.init).2 = 1 ∧
    (closeAsyncN 3 LifecycleState.init).1 = ⟨0, true, 0⟩ ∧
    (∀ s : LifecycleState, s.running = 0 → closeAsync s = (s, false)) :=
  retryC5 3 (by decide)

/-- C6: WaitForClose returns the timeout error exactly when the timeout
elapses before the fully-closed signal becomes receivable; once the signal
has fired (closedAt ≤ now), every call returns nil, whatever the timeout. -/
theorem retryC6 (closedAt : Option Nat) (now d : Nat) :
    (waitForClose closedAt now d = some CloseErr.timeout ↔
      timeoutElapsesFirst closedAt now d) ∧
    (∀ c, closedAt = some c → c ≤ now → waitForClose closedAt now d = none) := by
  constructor
  · cases closedAt with
    | none => simp [waitForClose, timeoutElapsesFirst]
    | some c =>
      by_cases hlt : now + d < max now c <;>
        simp [waitForClose, timeoutElapsesFirst, hlt]
  · intro c hc hle
    subst hc
    have hmax : max now c = now := Nat.max_eq_left hle
    simp [waitForClose, hmax]

/-- C6 witness: signal fired at time 5, call at time 10 with a zero
timeout still returns nil; and with the signal never firing, a call
returns the timeout error. -/
theorem retryC6_witness : waitForClose (some 5) 10 0 = none :=
  (retryC6 (some 5) 10 0).2 5 rfl (by decide)

/-- C7: the first Consume on a freshly constructed Retry succeeds, storing
the upstream channel and wiring the wrapped output to transactionsOut; a
second Consume returns the already-started error and leaves the first
wiring (both the stored upstream channel and the wrapped wiring) intact. -/
theorem retryC7 (outCh ts1 ts2 : Nat) :
    consume (ConsumeState.init outCh) ts1 =
      (⟨some ts1, outCh, some outCh, true⟩, none) ∧
    consume (⟨some ts1, outCh, some outCh, true⟩ : ConsumeState) ts2 =
      (⟨some ts1, outCh, some outCh, true⟩, some ConsumeErr.alreadyStarted) :=
  ⟨rfl, rfl⟩

/-- Schedule on which shutdown races the worker: closeChan wins the very
first response select. -/
def cexSched : WorkerSched :=
  ⟨fun _ => true, fun _ => none, fun _ => false, fun _ => false, false, 0⟩

/-- Schedule on which the first attempt succeeds and nothing is closed. -/
def succSched : WorkerSched :=
  ⟨fun _ => true, fun _ => some Res.success, fun _ => false, fun _ => false,
    false, 3⟩

/-- Schedule on which every attempt fails and nothing is closed. -/
def alwaysFailSched : WorkerSched :=
  ⟨fun _ => true, fun _ => some Res.failure, fun _ => false, fun _ => false,
    false, 0⟩

/-- Backoff instance produced for max retry count N: the first N calls
return an interval, the next call returns the stop sentinel. -/
def boffMax (N : Nat) : Nat → BackoffResult :=
  fun k => if k < N then BackoffResult.interval 100 else BackoffResult.stop

/-- Helper: one loop iteration when the running flag reads false. -/
theorem retryLoop_step_notRunning (s : WorkerSched) (boff : Nat → BackoffResult)
    (fuel i : Nat) (st : WState) (hrun : s.runningAt i = false) :
    retryLoop s boff (fuel+1) i st = some (st, LoopExit.fellThrough) := by
  rw [retryLoop, hrun]
  simp

/-- Helper: one loop iteration when closeChan wins the response select. -/
theorem retryLoop_step_closed (s : WorkerSched) (boff : Nat → BackoffResult)
    (fuel i : Nat) (st : WState) (hrun : s.runningAt i = true)
    (hresp : s.respAt i = none) :
    retryLoop s boff (fuel+1) i st = some (st, LoopExit.returned) := by
  rw [retryLoop, hrun, hresp]
  rfl

/-- Helper: one loop iteration on a success response. -/
theorem retryLoop_step_success (s : WorkerSched) (boff : Nat → BackoffResult)
    (fuel i : Nat) (st : WState) (hrun : s.runningAt i = true)
    (hresp : s.respAt i = some Res.success) :
    retryLoop s boff (fuel+1) i st =
      some (⟨st.inErrLoop, st.mError, st.mSuccess + 1,
             st.mPartsSuccess + s.payloadLen, st.mEndOfRetries,
             st.resubmits, st.incs⟩, LoopExit.broke Outcome.ack) := by
  rw [retryLoop, hrun, hresp]
  rfl

/-- Helper: one loop iteration on a failure response whose NextBackOff call
returns the stop sentinel. -/
theorem retryLoop_step_stop (s : WorkerSched) (boff : Nat → BackoffResult)
    (fuel i : Nat) (st : WState) (hrun : s.runningAt i = true)
    (hresp : s.respAt i = some Res.failure)
    (hb : boff st.mError = BackoffResult.stop) :
    retryLoop s boff (fuel+1) i st =
      some (⟨true, st.mError + 1, st.mSuccess, st.mPartsSuccess,
             st.mEndOfRetries + 1, st.resubmits,
             st.incs + (if st.inErrLoop then 0 else 1)⟩,
            LoopExit.broke Outcome.noack) := by
  rw [retryLoop, hrun, hresp, hb]
  cases hl : st.inErrLoop <;> simp [hl]

/-- Helper: one loop iteration on a failure response with a backoff
interval, when closeChan wins the timer select or the resubmission
select. -/
theorem retryLoop_step_interval_closed (s : WorkerSched)
    (boff : Nat → BackoffResult) (fuel i : Nat) (st : WState) (d : Nat)
    (hrun : s.runningAt i = true) (hresp : s.respAt i = some Res.failure)
    (hb : boff st.mError = BackoffResult.interval d)
    (hclosed : s.timerClosed i = true ∨ s.sendClosed i = true) :
    retryLoop s boff (fuel+1) i st =
      some (⟨true, st.mError + 1, st.mSuccess, st.mPartsSuccess,
             st.mEndOfRetries, st.resubmits,
             st.incs + (if st.inErrLoop then 0 else 1)⟩,
            LoopExit.returned) := by
  rw [retryLoop, hrun, hresp, hb]
  rcases hclosed with hc | hc
  · cases hl : st.inErrLoop <;> simp [hl, hc]
  · cases ht : s.timerClosed i <;> cases hl : st.inErrLoop <;>
      simp [hl, hc, ht]

/-- Helper: one loop iteration on a failure response with a backoff
interval, when neither the timer select nor the resubmission select is
interrupted: the worker resubmits and loops. -/
theorem retryLoop_step_interval (s : WorkerSched) (boff : Nat → BackoffResult)
    (fuel i : Nat) (st : WState) (d : Nat)
    (hrun : s.runningAt i = true) (hresp : s.respAt i = some Res.failure)
    (hb : boff st.mError = BackoffResult.interval d)
    (htimer : s.timerClosed i = false) (hsend : s.sendClosed i = false) :
    retryLoop s boff (fuel+1) i st =
      retryLoop s boff fuel (i+1)
        ⟨true, st.mError + 1, st.mSuccess, st.mPartsSuccess,
         st.mEndOfRetries, st.resubmits + 1,
         st.incs + (if st.inErrLoop then 0 else 1)⟩ := by
  rw [retryLoop, hrun, hresp, hb, htimer, hsend]
  cases hl : st.inErrLoop <;> simp [hl]

/-- Helper: on a schedule where the running flag stays up, responses always
arrive, and closeChan never wins a select, the retry loop can only exit by
breaking with a terminal outcome. -/
theorem retryLoop_no_close (s : WorkerSched) (boff : Nat → BackoffResult)
    (hrun : ∀ i, s.runningAt i = true)
    (hresp : ∀ i, s.respAt i ≠ none)
    (htimer : ∀ i, s.timerClosed i = false)
    (hsend : ∀ i, s.sendClosed i = false) :
    ∀ fuel i st st' ex, retryLoop s boff fuel i st = some (st', ex) →
      ∃ o, ex = LoopExit.broke o := by
  intro fuel
  induction fuel with
  | zero => intro i st st' ex h; simp [retryLoop] at h
  | succ n ih =>
    intro i st st' ex h
    cases hr : s.respAt i with
    | none => exact absurd hr (hresp i)
    | some r =>
      cases r with
      | success =>
        rw [retryLoop_step_success s boff n i st (hrun i) hr] at h
        simp only [Option.some.injEq, Prod.mk.injEq] at h
        exact ⟨Outcome.ack, h.2.symm⟩
      | failure =>
        cases hb : boff st.mError with
        | stop =>
          rw [retryLoop_step_stop s boff n i st (hrun i) hr hb] at h
          simp only [Option.some.injEq, Prod.mk.injEq] at h
          exact ⟨Outcome.noack, h.2.symm⟩
        | interval d =>
          rw [retryLoop_step_interval s boff n i st d (hrun i) hr hb
            (htimer i) (hsend i)] at h
          exact ih (i+1) _ st' ex h

/-- C1 (amended): at most one terminal outcome is ever written to a
transaction's original response channel (the worker has a single write
site), and on any completed run in which shutdown does not interfere the
worker exits its loop with a terminal outcome and writes it, exactly
once. -/
theorem retryC1 :
    (∀ r : WorkerResult, r.terminalWrites ≤ 1) ∧
    (∀ (s : WorkerSched) (boff : Nat → BackoffResult) (fuel : Nat)
        (r : WorkerResult), runWorker s boff fuel = some r →
      (∀ i, s.runningAt i = true) → (∀ i, s.respAt i ≠ none) →
      (∀ i, s.timerClosed i = false) → (∀ i, s.sendClosed i = false) →
      s.finalClosed = false →
      ∃ o, r.exited = LoopExit.broke o ∧ r.finalWrite = some (some o) ∧
        r.terminalWrites = 1) := by
  constructor
  · intro r
    unfold WorkerResult.terminalWrites
    split <;> simp
  · intro s boff fuel r h hrun hresp htimer hsend hfc
    unfold runWorker at h
    cases hl : retryLoop s boff fuel 0 WState.init with
    | none => rw [hl] at h; exact absurd h (by simp)
    | some p =>
      obtain ⟨st, ex⟩ := p
      obtain ⟨o, rfl⟩ :=
        retryLoop_no_close s boff hrun hresp htimer hsend fuel 0
          WState.init st ex hl
      rw [hl] at h
      simp only [hfc, Bool.false_eq_true, if_false, Option.some.injEq] at h
      subst h
      exact ⟨o, rfl, rfl, rfl⟩

/-- C1 witness: the immediately-succeeding schedule, on which the worker
exits with an ack and writes it exactly once. -/
theorem retryC1_witness :
    ∃ r : WorkerResult,
      runWorker succSched (fun _ => BackoffResult.stop) 1 = some r ∧
      ∃ o, r.exited = LoopExit.broke o ∧ r.finalWrite = some (some o) ∧
        r.terminalWrites = 1 := by
  refine ⟨⟨⟨false, 0, 1, 3, 0, 0, 0⟩, LoopExit.broke Outcome.ack,
    some (some Outcome.ack)⟩, rfl, ?_⟩
  exact retryC1.2 succSched (fun _ => BackoffResult.stop) 1 _ rfl
    (fun _ => rfl) (fun _ => by simp [succSched]) (fun _ => rfl)
    (fun _ => rfl) rfl

/-- C1 counterexample: when shutdown races the worker (closeChan wins the
response select), the worker's run completes with zero terminal outcomes
ever written to the transaction's original response channel — refuting
that exactly one outcome is written even when shutdown races with the
worker. -/
theorem retryC1_counterexample :
    ∃ r : WorkerResult,
      runWorker cexSched (fun _ => BackoffResult.stop) 1 = some r ∧
      r.terminalWrites = 0 ∧ r.finalWrite = none :=
  ⟨⟨WState.init, LoopExit.returned, none⟩, rfl, rfl, rfl⟩

/-- Helper: the retry loop under an always-failing target, for a backoff
instance whose first N calls return intervals and whose next call stops:
from any state with at most N failures so far, the loop performs the
remaining resubmissions and breaks with a noack, bumping end-of-retries
once. -/
theorem retryLoop_always_fail (boff : Nat → BackoffResult) (N : Nat)
    (hint : ∀ k, k < N → ∃ d, boff k = BackoffResult.interval d)
    (hstop : boff N = BackoffResult.stop) :
    ∀ fuel i st, st.mError ≤ N → N - st.mError < fuel →
      retryLoop alwaysFailSched boff fuel i st =
        some (⟨true, N + 1, st.mSuccess, st.mPartsSuccess,
               st.mEndOfRetries + 1, st.resubmits + (N - st.mError),
               st.incs + (if st.inErrLoop then 0 else 1)⟩,
              LoopExit.broke Outcome.noack) := by
  intro fuel
  induction fuel with
  | zero => intro i st _ hf; omega
  | succ n ih =>
    intro i st hle hf
    rcases Nat.lt_or_ge st.mError N with hm | hm
    · obtain ⟨d, hd⟩ := hint st.mError hm
      rw [retryLoop_step_interval alwaysFailSched boff n i st d rfl rfl hd
        rfl rfl]
      rw [ih (i+1) ⟨true, st.mError + 1, st.mSuccess, st.mPartsSuccess,
        st.mEndOfRetries, st.resubmits + 1,
        st.incs + (if st.inErrLoop then 0 else 1)⟩
        (by show st.mError + 1 ≤ N; omega)
        (by show N - (st.mError + 1) < n; omega)]
      simp only [Option.some.injEq, Prod.mk.injEq, WState.mk.injEq]
      simp only [show st.resubmits + 1 + (N - (st.mError + 1)) =
        st.resubmits + (N - st.mError) from by omega]
      simp
    · have hmN : st.mError = N := Nat.le_antisymm hle hm
      have hb : boff st.mError = BackoffResult.stop := by rw [hmN]; exact hstop
      rw [retryLoop_step_stop alwaysFailSched boff n i st rfl rfl hb]
      simp only [Option.some.injEq, Prod.mk.injEq, WState.mk.injEq, hmN]
      simp

/-- C2: against an always-failing target, with a backoff instance whose
first N calls (N > 0) return intervals and whose next call signals stop,
the worker's run completes with exactly N resubmissions — N + 1 total
delivery attempts counting the coordinator's initial dispatch — bumps the
end-of-retries metric exactly once, and writes the not-acknowledged
outcome. -/
theorem retryC2 (N : Nat) (hN : 0 < N) (boff : Nat → BackoffResult)
    (hint : ∀ k, k < N → ∃ d, boff k = BackoffResult.interval d)
    (hstop : boff N = BackoffResult.stop) :
    ∃ r : WorkerResult,
      runWorker alwaysFailSched boff (N + 1) = some r ∧
      r.st.resubmits = N ∧ totalDeliveryAttempts r = N + 1 ∧
      r.st.mEndOfRetries = 1 ∧
      r.finalWrite = some (some Outcome.noack) ∧ r.terminalWrites = 1 := by
  have h := retryLoop_always_fail boff N hint hstop (N + 1) 0 WState.init
    (by simp [WState.init]) (by simp [WState.init])
  refine ⟨⟨⟨true, N + 1, 0, 0, 1, N, 1⟩, LoopExit.broke Outcome.noack,
    some (some Outcome.noack)⟩, ?_, rfl,
    (show (1 : Nat) + N = N + 1 by omega), rfl, rfl, rfl⟩
  unfold runWorker
  rw [h]
  simp [alwaysFailSched, WState.init]

/-- C2 witness: the spec scenario, max retries = 2: three total delivery
attempts, one end-of-retries increment, a noack outcome. -/
theorem retryC2_witness :
    ∃ r : WorkerResult,
      runWorker alwaysFailSched (boffMax 2) (2 + 1) = some r ∧
      r.st.resubmits = 2 ∧ totalDeliveryAttempts r = 2 + 1 ∧
      r.st.mEndOfRetries = 1 ∧
      r.finalWrite = some (some Outcome.noack) ∧ r.terminalWrites = 1 :=
  retryC2 2 (by decide) (boffMax 2)
    (fun k hk => ⟨100, by simp [boffMax, hk]⟩) (by simp [boffMax])

/-- Helper: the worker-state invariant tying the shared-counter bookkeeping
together: inErrLoop is set exactly when at least one failure has been
seen, and the worker has incremented errLooped exactly when inErrLoop is
set. -/
def WInv (st : WState) : Prop :=
  st.inErrLoop = decide (0 < st.mError) ∧
  st.incs = (if st.inErrLoop then 1 else 0)

/-- Helper: the retry loop preserves the worker-state invariant. -/
theorem retryLoop_winv (s : WorkerSched) (boff : Nat → BackoffResult) :
    ∀ fuel i st st' ex, WInv st →
      retryLoop s boff fuel i st = some (st', ex) → WInv st' := by
  intro fuel
  induction fuel with
  | zero => intro i st st' ex _ h; simp [retryLoop] at h
  | succ n ih =>
    intro i st st' ex hinv h
    obtain ⟨h1, h2⟩ := hinv
    have hfail : WInv ⟨true, st.mError + 1, st.mSuccess, st.mPartsSuccess,
        st.mEndOfRetries, st.resubmits,
        st.incs + (if st.inErrLoop then 0 else 1)⟩ := by
      refine ⟨by simp, ?_⟩
      cases hl : st.inErrLoop with
      | true => rw [hl] at h2; simp [h2]
      | false => rw [hl] at h2; simp [h2]
    cases hrun : s.runningAt i with
    | false =>
      rw [retryLoop_step_notRunning s boff n i st hrun] at h
      simp only [Option.some.injEq, Prod.mk.injEq] at h
      exact h.1 ▸ ⟨h1, h2⟩
    | true =>
      cases hr : s.respAt i with
      | none =>
        rw [retryLoop_step_closed s boff n i st hrun hr] at h
        simp only [Option.some.injEq, Prod.mk.injEq] at h
        exact h.1 ▸ ⟨h1, h2⟩
      | some r =>
        cases r with
        | success =>
          rw [retryLoop_step_success s boff n i st hrun hr] at h
          simp only [Option.some.injEq, Prod.mk.injEq] at h
          obtain ⟨hst, _⟩ := h
          subst hst
          exact ⟨by simpa using h1, by simpa using h2⟩
        | failure =>
          cases hb : boff st.mError with
          | stop =>
            rw [retryLoop_step_stop s boff n i st hrun hr hb] at h
            simp only [Option.some.injEq, Prod.mk.injEq] at h
            obtain ⟨hst, _⟩ := h
            subst hst
            exact ⟨hfail.1, by simpa using hfail.2⟩
          | interval d =>
            cases ht : s.timerClosed i with
            | true =>
              rw [retryLoop_step_interval_closed s boff n i st d hrun hr hb
                (Or.inl ht)] at h
              simp only [Option.some.injEq, Prod.mk.injEq] at h
              obtain ⟨hst, _⟩ := h
              subst hst
              exact hfail
            | false =>
              cases hs : s.sendClosed i with
              | true =>
                rw [retryLoop_step_interval_closed s boff n i st d hrun hr hb
                  (Or.inr hs)] at h
                simp only [Option.some.injEq, Prod.mk.injEq] at h
                obtain ⟨hst, _⟩ := h
                subst hst
                exact hfail
              | false =>
                rw [retryLoop_step_interval s boff n i st d hrun hr hb
                  ht hs] at h
                refine ih (i+1) ⟨true, st.mError + 1, st.mSuccess,
                  st.mPartsSuccess, st.mEndOfRetries, st.resubmits + 1,
                  st.incs + (if st.inErrLoop then 0 else 1)⟩ st' ex
                  ⟨by simpa using hfail.1, by simpa using hfail.2⟩ h

/-- Helper: splitting a counter-event trace at any point. -/
theorem applyTrace_append (a b : List CEv) :
    ∀ st, applyTrace st (a ++ b) =
      (applyTrace st a).bind (fun q => applyTrace q b) := by
  induction a with
  | nil => intro st; rfl
  | cons e rest ih =>
    intro st
    cases e with
    | inc w =>
      by_cases hw : w ∈ st.2 <;> simp [applyTrace, hw, ih]
    | dec w =>
      by_cases hw : w ∈ st.2 <;> simp [applyTrace, hw, ih]

/-- Helper: along any accepted trace, the counter equals the number of
workers currently in their error loop, and that list stays duplicate
free. -/
theorem applyTrace_inv :
    ∀ (tr : List CEv) (st st' : Int × List Nat),
      st.1 = st.2.length → st.2.Nodup → applyTrace st tr = some st' →
      st'.1 = st'.2.length ∧ st'.2.Nodup := by
  intro tr
  induction tr with
  | nil =>
    intro st st' h1 h2 h
    simp only [applyTrace, Option.some.injEq] at h
    exact h ▸ ⟨h1, h2⟩
  | cons e rest ih =>
    intro st st' h1 h2 h
    cases e with
    | inc w =>
      by_cases hw : w ∈ st.2
      · simp [applyTrace, hw] at h
      · rw [applyTrace, if_neg hw] at h
        exact ih _ st' (by simp [h1]) (List.nodup_cons.mpr ⟨hw, h2⟩) h
    | dec w =>
      by_cases hw : w ∈ st.2
      · rw [applyTrace, if_pos hw] at h
        have hlen : (st.2.erase w).length = st.2.length - 1 :=
          List.length_erase_of_mem hw
        have hpos : 0 < st.2.length := List.length_pos.mpr
          (List.ne_nil_of_mem hw)
        refine ih _ st' ?_ (h2.erase w) h
        rw [hlen, h1]
        omega
      · simp [applyTrace, hw] at h

/-- C4: per worker, the shared errLooped counter is incremented at most
once, exactly when that worker saw at least one failure, and the deferred
decrement fires exactly as many times as the worker incremented (so a
never-failing transaction never touches the counter); and globally, at
every prefix of any accepted interleaving of such per-worker event pairs
the counter equals the number of workers currently in their error loop
and is never negative. -/
theorem retryC4 :
    (∀ (s : WorkerSched) (boff : Nat → BackoffResult) (fuel : Nat)
        (r : WorkerResult), runWorker s boff fuel = some r →
      r.st.incs ≤ 1 ∧ r.decs = r.st.incs ∧
      (r.st.mError = 0 → r.st.incs = 0) ∧
      (0 < r.st.mError → r.st.incs = 1)) ∧
    (∀ (pre rest : List CEv) (p : Int × List Nat),
      applyTrace (0, []) (pre ++ rest) = some p →
      ∃ q : Int × List Nat, applyTrace (0, []) pre = some q ∧
        q.1 = (q.2.length : Int) ∧ 0 ≤ q.1) := by
  constructor
  · intro s boff fuel r h
    unfold runWorker at h
    cases hl : retryLoop s boff fuel 0 WState.init with
    | none => rw [hl] at h; exact absurd h (by simp)
    | some p =>
      obtain ⟨st, ex⟩ := p
      have hinv : WInv st :=
        retryLoop_winv s boff fuel 0 WState.init st ex
          ⟨by simp [WState.init], by simp [WState.init]⟩ hl
      rw [hl] at h
      simp only [Option.some.injEq] at h
      have hst : r.st = st := by rw [← h]
      obtain ⟨h1, h2⟩ := hinv
      rw [hst]
      unfold WorkerResult.decs
      rw [hst]
      refine ⟨?_, ?_, ?_, ?_⟩
      · rw [h2]; split <;> simp
      · rw [h2]
      · intro hz
        rw [h2, h1, hz]
        simp
      · intro hz
        rw [h2, h1]
        simp [hz]
  · intro pre rest p h
    rw [applyTrace_append] at h
    cases hq : applyTrace (0, []) pre with
    | none => rw [hq] at h; exact absurd h (by simp)
    | some q =>
      have := applyTrace_inv pre (0, []) q (by simp) (by simp) hq
      exact ⟨q, rfl, this.1, by rw [this.1]; positivity⟩

/-- C4 witness: the always-failing two-retry run increments once and
decrements once; the trace with one worker's inc then dec keeps the
counter at the in-loop population, never negative. -/
theorem retryC4_witness :
    ((⟨⟨true, 3, 0, 0, 1, 2, 1⟩, LoopExit.broke Outcome.noack,
        some (some Outcome.noack)⟩ : WorkerResult).st.incs ≤ 1) ∧
    (∃ q : Int × List Nat,
      applyTrace (0, []) [CEv.inc 7] = some q ∧
      q.1 = (q.2.length : Int) ∧ 0 ≤ q.1) := by
  constructor
  · exact (retryC4.1 alwaysFailSched (boffMax 2) 3 _ rfl).1
  · exact retryC4.2 [CEv.inc 7] [CEv.dec 7] (0, []) rfl

/-- Helper: one gate check reading zero exits the gate at once. -/
theorem gate_step_zero (s : GateSched) (fuel k : Nat)
    (h : s.counterAt k = 0) :
    gate s (fuel+1) k = some (GateResult.proceed k) := by
  rw [gate, if_pos h]

/-- Helper: one gate wait won by closeChan returns from the loop. -/
theorem gate_step_closed (s : GateSched) (fuel k t : Nat)
    (h0 : s.counterAt k ≠ 0) (hev : s.evAt k = GateEv.closed t) :
    gate s (fuel+1) k = some (GateResult.returned (k+1)) := by
  rw [gate, if_neg h0, hev]

/-- Helper: one gate wait won by an interrupt re-checks the counter. -/
theorem gate_step_interrupt (s : GateSched) (fuel k t : Nat)
    (h0 : s.counterAt k ≠ 0) (hev : s.evAt k = GateEv.interrupt t) :
    gate s (fuel+1) k = gate s fuel (k+1) := by
  rw [gate, if_neg h0, hev]

/-- Helper: one gate wait ended by the 100ms fallback re-checks the
counter. -/
theorem gate_step_timeout (s : GateSched) (fuel k : Nat)
    (h0 : s.counterAt k ≠ 0) (hev : s.evAt k = GateEv.timeout) :
    gate s (fuel+1) k = gate s fuel (k+1) := by
  rw [gate, if_neg h0, hev]

/-- Helper: if the gate proceeds after k checks, the k-th errLooped read
was zero and every earlier read was positive. -/
theorem gate_proceed_spec (s : GateSched) :
    ∀ fuel k0 k, gate s fuel k0 = some (GateResult.proceed k) →
      k0 ≤ k ∧ s.counterAt k = 0 ∧
      ∀ j, k0 ≤ j → j < k → 0 < s.counterAt j := by
  intro fuel
  induction fuel with
  | zero => intro k0 k h; simp [gate] at h
  | succ n ih =>
    intro k0 k h
    by_cases h0 : s.counterAt k0 = 0
    · rw [gate_step_zero s n k0 h0] at h
      simp only [Option.some.injEq, GateResult.proceed.injEq] at h
      subst h
      exact ⟨Nat.le_refl _, h0, fun j hj1 hj2 => by omega⟩
    · cases hev : s.evAt k0 with
      | closed t =>
        rw [gate_step_closed s n k0 t h0 hev] at h
        simp at h
      | interrupt t =>
        rw [gate_step_interrupt s n k0 t h0 hev] at h
        obtain ⟨hle, hz, hall⟩ := ih (k0+1) k h
        refine ⟨by omega, hz, fun j hj1 hj2 => ?_⟩
        rcases Nat.eq_or_lt_of_le hj1 with rfl | hlt
        · exact Nat.pos_of_ne_zero h0
        · exact hall j hlt hj2
      | timeout =>
        rw [gate_step_timeout s n k0 h0 hev] at h
        obtain ⟨hle, hz, hall⟩ := ih (k0+1) k h
        refine ⟨by omega, hz, fun j hj1 hj2 => ?_⟩
        rcases Nat.eq_or_lt_of_le hj1 with rfl | hlt
        · exact Nat.pos_of_ne_zero h0
        · exact hall j hlt hj2

/-- Helper: if the counter reads zero at check k, every earlier read is
positive and no earlier wait is won by closeChan, then with enough fuel
the gate proceeds at exactly check k. -/
theorem gate_complete (s : GateSched) :
    ∀ fuel k0 k, k0 ≤ k → s.counterAt k = 0 →
      (∀ j, k0 ≤ j → j < k →
        0 < s.counterAt j ∧ ∀ t, s.evAt j ≠ GateEv.closed t) →
      k - k0 < fuel → gate s fuel k0 = some (GateResult.proceed k) := by
  intro fuel
  induction fuel with
  | zero => intro k0 k _ _ _ h4; omega
  | succ n ih =>
    intro k0 k h1 h2 h3 h4
    rcases Nat.eq_or_lt_of_le h1 with rfl | hlt
    · exact gate_step_zero s n k0 h2
    · have h0 : s.counterAt k0 ≠ 0 := by
        have := (h3 k0 (Nat.le_refl _) hlt).1
        omega
      cases hev : s.evAt k0 with
      | closed t => exact absurd hev ((h3 k0 (Nat.le_refl _) hlt).2 t)
      | interrupt t =>
        rw [gate_step_interrupt s n k0 t h0 hev]
        exact ih (k0+1) k hlt h2 (fun j hj1 hj2 => h3 j (by omega) hj2)
          (by omega)
      | timeout =>
        rw [gate_step_timeout s n k0 h0 hev]
        exact ih (k0+1) k hlt h2 (fun j hj1 hj2 => h3 j (by omega) hj2)
          (by omega)

/-- C3: while errLooped reads positive the coordinator does not pull — a
pull happens only at a check that read zero, after waits at every one of
which the counter read positive; each gate wait is bounded by the 100ms
fallback timeout (or ends earlier on an interrupt or cancellation); and
once the counter reads zero (with no cancellation during the gate), the
gate exits and the next transaction is pulled. -/
theorem retryC3 (s : GateSched) (fuel k : Nat) :
    (gate s fuel 0 = some (GateResult.proceed k) →
      s.counterAt k = 0 ∧ (∀ j, j < k → 0 < s.counterAt j) ∧
      coordIterActions s fuel =
        some (((List.range k).map
          (fun j => CoordAction.gateWait (s.evAt j))) ++
          [CoordAction.pull])) ∧
    (gate s fuel 0 = some (GateResult.returned k) →
      coordIterActions s fuel =
        some (((List.range k).map
          (fun j => CoordAction.gateWait (s.evAt j))) ++
          [CoordAction.exitLoop]) ∧
      CoordAction.pull ∉
        (((List.range k).map (fun j => CoordAction.gateWait (s.evAt j))) ++
          [CoordAction.exitLoop])) ∧
    (∀ ev : GateEv, ev.valid → ev.elapsed ≤ 100) ∧
    (s.counterAt k = 0 →
      (∀ j, j < k →
        0 < s.counterAt j ∧ ∀ t, s.evAt j ≠ GateEv.closed t) →
      k < fuel → gate s fuel 0 = some (GateResult.proceed k)) := by
  refine ⟨?_, ?_, ?_, ?_⟩
  · intro h
    obtain ⟨_, hz, hall⟩ := gate_proceed_spec s fuel 0 k h
    exact ⟨hz, fun j hj => hall j (Nat.zero_le _) hj,
      by simp [coordIterActions, h]⟩
  · intro h
    refine ⟨by simp [coordIterActions, h], ?_⟩
    simp only [List.mem_append, List.mem_map, List.mem_singleton]
    rintro (⟨j, _, hj⟩ | hc)
    · exact CoordAction.noConfusion hj
    · exact CoordAction.noConfusion hc
  · intro ev hv
    cases ev with
    | interrupt t => simp only [GateEv.valid] at hv; simp [GateEv.elapsed]; omega
    | timeout => simp [GateEv.elapsed]
    | closed t => simp only [GateEv.valid] at hv; simpa [GateEv.elapsed] using hv
  · intro h2 h3 h4
    exact gate_complete s fuel 0 k (Nat.zero_le _) h2
      (fun j _ hj2 => h3 j hj2) (by omega)

/-- Gate schedule used as witness: one worker retrying during the first
check, resolved by the fallback timeout, counter zero from the second
check on. -/
def gateSchedW : GateSched := ⟨fun k => 1 - k, fun _ => GateEv.timeout⟩

/-- C3 witness: on the concrete schedule the gate proceeds at check 1, and
the fallback timeout event takes exactly the 100ms bound. -/
theorem retryC3_witness :
    gate gateSchedW 2 0 = some (GateResult.proceed 1) ∧
    GateEv.timeout.elapsed ≤ 100 := by
  constructor
  · exact (retryC3 gateSchedW 2 1).2.2.2 rfl
      (fun j hj => ⟨by simp [gateSchedW]; omega,
        fun t h => GateEv.noConfusion h⟩) (by omega)
  · exact (retryC3 gateSchedW 2 1).2.2.1 GateEv.timeout trivial

/-- C8 (amended): NewRetry fails exactly when the child output
configuration is absent, the child output fails to construct, or the
backoff constructor fails; when the child fails, the error wraps the
underlying error with the child target's declared type name. -/
theorem retryC8 (o : Option OutputConf)
    (childNew : OutputConf → Except String Unit)
    (getCtor : Except String Unit) :
    (isErr (newRetry o childNew getCtor) = true ↔
      (o = none ∨ ∃ c, o = some c ∧
        (isErr (childNew c) = true ∨ isErr getCtor = true))) ∧
    (∀ c e, o = some c → childNew c = Except.error e →
      newRetry o childNew getCtor =
        Except.error (ConstructErr.childFailed c.typeName e)) := by
  constructor
  · cases o with
    | none => simp [newRetry, isErr]
    | some c =>
      cases hcn : childNew c with
      | error e => simp [newRetry, isErr, hcn]
      | ok u =>
        cases hg : getCtor with
        | error e => simp [newRetry, isErr, hcn, hg]
        | ok v => simp [newRetry, isErr, hcn, hg]
  · intro c e ho hcn
    subst ho
    simp [newRetry, hcn]

/-- C8 witness: a present child config whose construction fails yields the
wrapped error. -/
theorem retryC8_witness :
    newRetry (some ⟨"x"⟩) (fun _ => Except.error "boom") (Except.ok ()) =
      Except.error (ConstructErr.childFailed "x" "boom") :=
  (retryC8 (some ⟨"x"⟩) (fun _ => Except.error "boom") (Except.ok ())).2
    ⟨"x"⟩ "boom" rfl rfl

/-- C8 counterexample: with a present child config and a successfully
constructing child, a failing backoff constructor still makes NewRetry
fail — refuting that NewRetry fails exactly when the child config is
absent or the child fails to construct. -/
theorem retryC8_counterexample :
    ¬ (isErr (newRetry (some ⟨"kafka"⟩) (fun _ => Except.ok ())
        (Except.error "bad")) = true ↔
      ((some (⟨"kafka"⟩ : OutputConf)) = none ∨
        isErr ((fun (_ : OutputConf) => (Except.ok () : Except String Unit))
          ⟨"kafka"⟩) = true)) := by
  decide

/-- Helper: the WaitForClose re-poll loop, when it completes, consists of
the failing polls followed by the single succeeding one, each carrying
the fixed one-second timeout. -/
theorem pollLoop_spec (pollOk : Nat → Bool) :
    ∀ fuel i l, pollLoop pollOk fuel i = some l →
      ∃ k, pollOk (i + k) = true ∧
        (∀ j, j < k → pollOk (i + j) = false) ∧
        l = List.replicate k (ShutEv.wrappedWaitPoll 1 false) ++
          [ShutEv.wrappedWaitPoll 1 true] := by
  intro fuel
  induction fuel with
  | zero => intro i l h; simp [pollLoop] at h
  | succ n ih =>
    intro i l h
    by_cases hp : pollOk i = true
    · rw [pollLoop, if_pos hp] at h
      simp only [Option.some.injEq] at h
      exact ⟨0, by simpa using hp, fun j hj => by omega, by simp [h.symm]⟩
    · rw [pollLoop, if_neg hp] at h
      cases hrec : pollLoop pollOk n (i+1) with
      | none => rw [hrec] at h; simp at h
      | some l' =>
        rw [hrec] at h
        simp only [Option.map_some', Option.some.injEq] at h
        obtain ⟨k, hk1, hk2, hk3⟩ := ih (i+1) l' hrec
        refine ⟨k + 1, ?_, ?_, ?_⟩
        · rw [show i + (k + 1) = i + 1 + k from by omega]
          exact hk1
        · intro j hj
          cases j with
          | zero => simpa using hp
          | succ j' =>
            rw [show i + (j' + 1) = i + 1 + j' from by omega]
            exact hk2 j' (by omega)
        · rw [← h, hk3]
          simp [List.replicate_succ]


/-- C9: whenever the deferred shutdown completes, its steps occur in this
order: transactionsOut is closed first, the wrapped output's CloseAsync is
called second, then one or more WaitForClose polls each with the fixed
one-second timeout (all failing except the last), and only after the last
poll succeeds is the running gauge decremented and closedChan closed,
last of all. -/
theorem retryC9 (pollOk : Nat → Bool) (fuel : Nat) (evs : List ShutEv) :
    shutdown pollOk fuel = some evs →
    ∃ k, pollOk k = true ∧ (∀ j, j < k → pollOk j = false) ∧
      evs = ShutEv.closeTransactionsOut :: ShutEv.wrappedCloseAsync ::
        (List.replicate k (ShutEv.wrappedWaitPoll 1 false) ++
          [ShutEv.wrappedWaitPoll 1 true, ShutEv.gaugeDecr,
           ShutEv.closeClosedChan]) := by
  intro h
  unfold shutdown at h
  cases hp : pollLoop pollOk fuel 0 with
  | none => rw [hp] at h; simp at h
  | some polls =>
    rw [hp] at h
    simp only [Option.map_some', Option.some.injEq] at h
    obtain ⟨k, hk1, hk2, hk3⟩ := pollLoop_spec pollOk fuel 0 polls hp
    refine ⟨k, by simpa using hk1, fun j hj => by simpa using hk2 j hj, ?_⟩
    rw [← h, hk3]
    simp

/-- C9 witness: a wrapped output that reports closed on the second poll
yields the concrete ordered event list. -/
theorem retryC9_witness :
    ∃ k, (fun i => decide (0 < i)) k = true ∧
      (∀ j, j < k → (fun i => decide (0 < i)) j = false) ∧
      ([ShutEv.closeTransactionsOut, ShutEv.wrappedCloseAsync,
        ShutEv.wrappedWaitPoll 1 false, ShutEv.wrappedWaitPoll 1 true,
        ShutEv.gaugeDecr, ShutEv.closeClosedChan] : List ShutEv) =
      ShutEv.closeTransactionsOut :: ShutEv.wrappedCloseAsync ::
        (List.replicate k (ShutEv.wrappedWaitPoll 1 false) ++
          [ShutEv.wrappedWaitPoll 1 true, ShutEv.gaugeDecr,
           ShutEv.closeClosedChan]) :=
  retryC9 (fun i => decide (0 < i)) 2
    [ShutEv.closeTransactionsOut, ShutEv.wrappedCloseAsync,
     ShutEv.wrappedWaitPoll 1 false, ShutEv.wrappedWaitPoll 1 true,
     ShutEv.gaugeDecr, ShutEv.closeClosedChan] rfl

end RetryOutput
